import Mathlib

/-!
Verification of the claim-reconciliation engine of a prediction-market
copy-trading service (source: src/app/api/status/route.ts, consumed by
src/app/api/claim-now/route.ts).

The TypeScript core is embedded shallowly:
* JS strings are `String` (lists of characters); `slice(0, n)` on the
  (BMP) strings used here is `sliceChars`, `padStart`/`slice(-64)` are
  `padTo64`/`last64` on character lists.
* `process.env.X` is `Option String` (absent = `none`); the JS `??`
  operator is `jsOr`; JS string truthiness (`!!s`, `!s`) is `truthy`.
* The external collaborators are oracles: `getPositions` returns
  `Except String (List Position)` (an exception is `Except.error`), and a
  per-condition redemption attempt (relay execute+wait, or direct
  send+wait) returns a `RedeemOutcome`: either it completes with an
  optional transaction hash, or it throws with a message.
* The `try`/`catch` body of each per-condition loop iteration is one
  total step function (`relayerStep` / `directStep`); the loop is `foldl`.
* The signing-client construction that precedes each loop —
  `privateKeyToAccount`/`createWalletClient`/`RelayClient` (lines 96-111)
  and `new Wallet(privateKey, provider)` (line 150) — runs OUTSIDE the
  per-condition `try`/`catch` and throws synchronously for a malformed
  key; it is modeled by the oracles `mkAccount` and `mkWallet` of type
  `String → Except String Unit`, applied to the private key, so both
  redeemers return `Except String ClaimResult` and `claimWinnings`
  (which awaits them without a `try`) propagates their errors.
-/

/-- One held position as returned by the Position Source
(`{conditionId, size, redeemable}`); `conditionId` is `none` when the
field is not a string (defensive filter in the source). -/
structure Position where
  conditionId : Option String
  size : Int
  redeemable : Bool
deriving DecidableEq

/-- The accumulated claim report (`ClaimResult` in the source). -/
structure ClaimResult where
  claimed : Nat
  failed : Nat
  errors : List String
  txHashes : List String
deriving DecidableEq

/-- The six environment variables read by the strategy selector and the
relayer guard; `none` models an unset variable. -/
structure Env where
  POLY_BUILDER_API_KEY : Option String
  BUILDER_API_KEY : Option String
  POLY_BUILDER_SECRET : Option String
  BUILDER_SECRET : Option String
  POLY_BUILDER_PASSPHRASE : Option String
  BUILDER_PASSPHRASE : Option String
deriving DecidableEq

/-- Outcome of one per-condition redemption attempt, as observed inside
the `try` block: `ok h` means execute-and-wait completed and
`waitResult?.transactionHash` (resp. `receipt?.transactionHash`) was `h`
(`none` = no wait result or no hash field); `thrown msg` means some call
in the block threw an exception whose rendered message is `msg`. -/
inductive RedeemOutcome where
  | ok (transactionHash : Option String)
  | thrown (msg : String)
deriving DecidableEq

/-- JS nullish coalescing `a ?? b`: the first DEFINED operand wins, even
when it is the empty string. -/
def jsOr (a b : Option String) : Option String :=
  match a with
  | some v => some v
  | none => b

/-- JS truthiness of a string-or-undefined value (`!!x`): `false` for
undefined and for the empty string. -/
def truthy (o : Option String) : Bool :=
  match o with
  | some s => if s = "" then false else true
  | none => false

/-- Lines 204-207 of the source: `useRelayer` is true iff all three
credentials, each resolved by `??` from its primary and fallback
environment variable, are truthy. -/
def useRelayer (env : Env) : Bool :=
  truthy (jsOr env.POLY_BUILDER_API_KEY env.BUILDER_API_KEY) &&
  truthy (jsOr env.POLY_BUILDER_SECRET env.BUILDER_SECRET) &&
  truthy (jsOr env.POLY_BUILDER_PASSPHRASE env.BUILDER_PASSPHRASE)

/-- Model of `id.startsWith("0x") ? id.slice(2) : id` on the character list. -/
def strip0x (cs : List Char) : List Char :=
  if cs.take 2 = ['0', 'x'] then cs.drop 2 else cs

/-- Model of `hex.padStart(64, "0")`: left-pad with zeros to length at least 64. -/
def padTo64 (hex : List Char) : List Char :=
  List.replicate (64 - hex.length) '0' ++ hex

/-- Model of `s.slice(-64)`: the last 64 characters (the whole string if shorter). -/
def last64 (cs : List Char) : List Char :=
  cs.drop (cs.length - 64)

/-- Character-list body of `normalizeConditionId`. -/
def normChars (cs : List Char) : List Char :=
  ['0', 'x'] ++ last64 (padTo64 (strip0x cs))

/-- Lines 77-80 of the source: strip an optional `0x` prefix, left-pad
with zeros to at least 64 characters, keep the last 64, re-prefix. -/
def normalizeConditionId (id : String) : String :=
  String.mk (normChars id.data)

/-- JS `s.slice(0, n)`: the first `n` characters. -/
def sliceChars (s : String) (n : Nat) : String :=
  String.mk (s.data.take n)

/-- The error record appended by the relayer loop (line 135):
`conditionId.slice(0, 10)` + `"…: "` + `msg.slice(0, 80)`. -/
def errorRecordRelayer (conditionId msg : String) : String :=
  sliceChars conditionId 10 ++ "…: " ++ sliceChars msg 80

/-- The error record appended by the direct loop (line 178), textually
the same format as the relayer one. -/
def errorRecordDirect (conditionId msg : String) : String :=
  sliceChars conditionId 10 ++ "…: " ++ sliceChars msg 80

/-- One iteration of the relayer loop (lines 116-138): on a hash, count
a claim and record the hash (the truthiness test skips an empty-string
hash); on no hash, do nothing; on a thrown error, count a failure and
record the truncated error. -/
def relayerStep (redeem : String → RedeemOutcome) (r : ClaimResult)
    (conditionId : String) : ClaimResult :=
  match redeem conditionId with
  | RedeemOutcome.ok waitHash =>
    match waitHash with
    | some h =>
      if h = "" then r
      else { r with claimed := r.claimed + 1, txHashes := r.txHashes ++ [h] }
    | none => r
  | RedeemOutcome.thrown msg =>
    { r with failed := r.failed + 1,
             errors := r.errors ++ [errorRecordRelayer conditionId msg] }

/-- One iteration of the direct loop (lines 162-181), same shape as
`relayerStep` with the direct error record. -/
def directStep (redeem : String → RedeemOutcome) (r : ClaimResult)
    (conditionId : String) : ClaimResult :=
  match redeem conditionId with
  | RedeemOutcome.ok waitHash =>
    match waitHash with
    | some h =>
      if h = "" then r
      else { r with claimed := r.claimed + 1, txHashes := r.txHashes ++ [h] }
    | none => r
  | RedeemOutcome.thrown msg =>
    { r with failed := r.failed + 1,
             errors := r.errors ++ [errorRecordDirect conditionId msg] }

/-- Lines 85-139 of the source (`claimViaRelayer`): re-read the three
credentials and return early when any is falsy (line 94); then build the
signing account, wallet client and relay client from the private key
(lines 96-111) — construction that sits OUTSIDE the per-condition
`try`/`catch` and may throw for a malformed key, modeled by the
`mkAccount` oracle whose error propagates; on success run the
per-condition loop. The redemption oracle receives the private key (the
relay client is built from it) and the raw condition id. -/
def claimViaRelayer (env : Env) (privateKey : String)
    (mkAccount : String → Except String Unit)
    (redeem : String → String → RedeemOutcome)
    (conditionIds : List String) (result : ClaimResult) :
    Except String ClaimResult :=
  let key := jsOr env.POLY_BUILDER_API_KEY env.BUILDER_API_KEY
  let secret := jsOr env.POLY_BUILDER_SECRET env.BUILDER_SECRET
  let passphrase := jsOr env.POLY_BUILDER_PASSPHRASE env.BUILDER_PASSPHRASE
  if !truthy key || !truthy secret || !truthy passphrase then Except.ok result
  else
    match mkAccount privateKey with
    | Except.error e => Except.error e
    | Except.ok _ =>
      Except.ok (conditionIds.foldl (relayerStep (redeem privateKey)) result)

/-- Lines 144-182 of the source (`claimViaDirect`): build the provider,
signer and contract binding (lines 149-157; `new Wallet(privateKey,
provider)` throws for a malformed key, OUTSIDE any `try`/`catch`),
modeled by the `mkWallet` oracle whose error propagates; then run the
per-condition loop over the direct contract call. -/
def claimViaDirect (privateKey : String)
    (mkWallet : String → Except String Unit)
    (redeem : String → String → RedeemOutcome)
    (conditionIds : List String) (result : ClaimResult) :
    Except String ClaimResult :=
  match mkWallet privateKey with
  | Except.error e => Except.error e
  | Except.ok _ =>
    Except.ok (conditionIds.foldl (directStep (redeem privateKey)) result)

/-- Insertion step of a JS `Set` built from a list: append the element
unless already present (JS sets preserve first-insertion order). -/
def jsSetInsert {α : Type} [DecidableEq α] (acc : List α) (x : α) : List α :=
  if x ∈ acc then acc else acc ++ [x]

/-- Model of `Array.from(new Set(l))`: deduplicate keeping the first occurrence
of each element, in order. -/
def jsSetDedup {α : Type} [DecidableEq α] (l : List α) : List α :=
  l.foldl jsSetInsert []

/-- The filter predicate of line 195: `p.redeemable && p.size > 0`. -/
def isRedeemablePos (p : Position) : Bool :=
  p.redeemable && decide (p.size > 0)

/-- The type-guard filter of line 201: keep `id` only when it is a
string of positive length. -/
def nonEmptyStringOf (id : Option String) : Option String :=
  match id with
  | some s => if s = "" then none else some s
  | none => none

/-- Lines 200-202: `Array.from(new Set(redeemable.map(p => p.conditionId)))`
filtered to non-empty strings; `redeemable` is the already-filtered list. -/
def conditionIdsOf (redeemable : List Position) : List String :=
  (jsSetDedup (redeemable.map Position.conditionId)).filterMap nonEmptyStringOf

/-- Lines 189-216 of the source (`claimWinnings`): fetch positions
(propagating a fetch failure), filter to redeemable positions of
positive size, short-circuit on an empty filtered set, deduplicate the
condition ids, select the strategy once, and dispatch the whole list to
exactly one redeemer; the redeemer is awaited without a `try`, so an
exception from its client construction also propagates. -/
def claimWinnings (env : Env)
    (getPositions : String → Nat → Except String (List Position))
    (mkAccount mkWallet : String → Except String Unit)
    (relayRedeem directRedeem : String → String → RedeemOutcome)
    (privateKey myAddress : String) : Except String ClaimResult :=
  match getPositions myAddress 200 with
  | Except.error e => Except.error e
  | Except.ok positions =>
    let result : ClaimResult := ⟨0, 0, [], []⟩
    let redeemable := positions.filter isRedeemablePos
    if redeemable.length = 0 then Except.ok result
    else
      let conditionIds := conditionIdsOf redeemable
      if useRelayer env then
        claimViaRelayer env privateKey mkAccount relayRedeem conditionIds result
      else
        claimViaDirect privateKey mkWallet directRedeem conditionIds result

/-!
Definitions modelled from the spec's words, for comparison with the
source-derived definitions above.
-/

/-- Modelled from the spec: "first non-empty wins" resolution of one
credential — the value of an option only when it is a non-empty string. -/
def nonEmptyOf (o : Option String) : Option String :=
  match o with
  | some v => if v = "" then none else some v
  | none => none

/-- Modelled from the spec: the first non-empty value among the primary
and the fallback source of a credential. -/
def firstNonEmpty (a b : Option String) : Option String :=
  match nonEmptyOf a with
  | some v => some v
  | none => nonEmptyOf b

/-- Modelled from the spec: the strategy selector as the spec words it —
relayed iff all three credentials, each resolved by first-NON-EMPTY-wins,
are present. -/
def specUseRelayer (env : Env) : Bool :=
  (firstNonEmpty env.POLY_BUILDER_API_KEY env.BUILDER_API_KEY).isSome &&
  (firstNonEmpty env.POLY_BUILDER_SECRET env.BUILDER_SECRET).isSome &&
  (firstNonEmpty env.POLY_BUILDER_PASSPHRASE env.BUILDER_PASSPHRASE).isSome

/-- A lowercase hexadecimal digit. -/
def isLowerHexDigit (c : Char) : Bool :=
  ('0' ≤ c && c ≤ '9') || ('a' ≤ c && c ≤ 'f')

/-- Modelled from the spec: "output matches the pattern 0x + exactly 64
lowercase hex digits". -/
def specLowerHexPattern (s : String) : Bool :=
  decide (s.data.take 2 = ['0', 'x']) && decide (s.data.length = 66) &&
  (s.data.drop 2).all isLowerHexDigit

/-- Modelled from the spec: an error record that "consists of the first
10 characters of the condition id followed by the first 80 characters of
the error message" — nothing in between. -/
def specRecordPlain (conditionId msg : String) : String :=
  sliceChars conditionId 10 ++ sliceChars msg 80

/-- The invariant of claim C9: the claimed counter equals the number of
recorded hashes and the failed counter the number of recorded errors. -/
def resultInv (r : ClaimResult) : Prop :=
  r.claimed = r.txHashes.length ∧ r.failed = r.errors.length

/-!  Concrete data used by the example scenarios of the claims. -/

/-- The spec's example position list (claim C4). -/
def examplePositions : List Position :=
  [⟨some "abc", 5, true⟩, ⟨some "abc", 3, true⟩,
   ⟨some "def", 0, true⟩, ⟨some "ghi", 2, false⟩]

/-- An environment with every credential present and non-empty. -/
def envFullCreds : Env :=
  ⟨some "k", some "k2", some "s", some "s2", some "p", some "p2"⟩

/-- An environment with no credential set (direct path). -/
def envNoCreds : Env := ⟨none, none, none, none, none, none⟩

/-- An environment whose primary API-key variable is set to the empty
string while its fallback is non-empty, the other credentials being
non-empty: first-defined-wins (the code) resolves the key to `""`,
first-non-empty-wins (the spec) resolves it to `"k"`. -/
def envPrimaryEmptyKey : Env :=
  ⟨some "", some "k", some "s", none, some "p", none⟩

/-- A redemption oracle that throws on the second of three conditions
and returns a hash derived from the id otherwise (claim C5). -/
def scenarioRedeem : String → RedeemOutcome := fun id =>
  if id = "c2" then RedeemOutcome.thrown "relay rejected"
  else RedeemOutcome.ok (some ("h" ++ id))

/-- A position source returning one redeemable position (claim C2). -/
def posSrcOne : String → Nat → Except String (List Position) :=
  fun _ _ => Except.ok [⟨some "abc", 5, true⟩]

/-- A signing-client construction that succeeds for every key. -/
def okCtor : String → Except String Unit :=
  fun _ => Except.ok ()

/-- A signing-client construction that throws for the malformed key
`badkey`, as `privateKeyToAccount` and `new Wallet` do for an invalid
private key (claim C2). -/
def badKeyCtor : String → Except String Unit := fun k =>
  if k = "badkey" then Except.error "invalid private key" else Except.ok ()

/-!  Helper lemmas about the condition normalizer. -/

theorem strip0x_prepend (t : List Char) : strip0x (['0', 'x'] ++ t) = t := by
  simp [strip0x]

theorem padTo64_length (hex : List Char) :
    (padTo64 hex).length = max 64 hex.length := by
  simp [padTo64]
  omega

theorem padTo64_of_ge (hex : List Char) (h : 64 ≤ hex.length) :
    padTo64 hex = hex := by
  simp [padTo64, Nat.sub_eq_zero_of_le h]

theorem last64_length (cs : List Char) (h : 64 ≤ cs.length) :
    (last64 cs).length = 64 := by
  simp [last64]
  omega

theorem last64_of_eq (cs : List Char) (h : cs.length = 64) : last64 cs = cs := by
  simp [last64, h]

theorem normChars_tail_length (cs : List Char) :
    (last64 (padTo64 (strip0x cs))).length = 64 :=
  last64_length _ (by rw [padTo64_length]; omega)

theorem normChars_idem (cs : List Char) :
    normChars (normChars cs) = normChars cs := by
  have h2 := normChars_tail_length cs
  simp only [normChars, strip0x_prepend]
  rw [padTo64_of_ge _ (le_of_eq h2.symm), last64_of_eq _ h2]

/-- Claim C7: the condition normalizer is idempotent — for every string
`x`, `normalize(normalize(x)) = normalize(x)`. -/
theorem normalizeConditionId_idempotent (s : String) :
    normalizeConditionId (normalizeConditionId s) = normalizeConditionId s := by
  simp only [normalizeConditionId]
  exact congrArg String.mk (normChars_idem s.data)

/-- Claim C6, counterexample: on the non-empty input `"Q"` the
normalizer's output contains the character `Q`, so it does NOT match the
pattern `0x` + 64 lowercase hexadecimal digits; the code neither
validates hex digits nor lowercases. -/
theorem normalizeConditionId_not_lower_hex :
    ("Q" : String) ≠ "" ∧
    specLowerHexPattern (normalizeConditionId "Q") = false := by
  constructor
  · decide
  · decide

/-- Claim C6 (amended): for every non-empty input string the output is
`0x` followed by exactly 64 characters (strip an optional `0x` prefix,
left-pad with zeros to at least 64 characters, take the last 64,
re-prefix with `0x`), and it matches `0x` + exactly 64 lowercase
hexadecimal digits whenever the stripped input consists only of
lowercase hexadecimal digits. -/
theorem normalizeConditionId_shape (s : String) (h : s ≠ "") :
    (normalizeConditionId s).data.take 2 = ['0', 'x'] ∧
    (normalizeConditionId s).data.length = 66 ∧
    ((strip0x s.data).all isLowerHexDigit = true →
      specLowerHexPattern (normalizeConditionId s) = true) := by
  refine ⟨rfl, ?_, ?_⟩
  · show (['0', 'x'] ++ last64 (padTo64 (strip0x s.data))).length = 66
    rw [List.length_append, normChars_tail_length]
    rfl
  · intro hall
    have hpad : (padTo64 (strip0x s.data)).all isLowerHexDigit = true := by
      simp only [padTo64, List.all_append, Bool.and_eq_true]
      refine ⟨?_, hall⟩
      rw [List.all_eq_true]
      intro c hc
      rw [List.eq_of_mem_replicate hc]
      decide
    have htail : (last64 (padTo64 (strip0x s.data))).all isLowerHexDigit = true := by
      rw [List.all_eq_true] at hpad ⊢
      intro c hc
      exact hpad c (List.mem_of_mem_drop hc)
    simp only [specLowerHexPattern, Bool.and_eq_true, decide_eq_true_eq]
    refine ⟨⟨rfl, ?_⟩, ?_⟩
    · show (['0', 'x'] ++ last64 (padTo64 (strip0x s.data))).length = 66
      rw [List.length_append, normChars_tail_length]
      rfl
    · exact htail

/-- Witness for the amended claim C6 at the concrete input `"ab"`. -/
theorem normalizeConditionId_shape_witness :
    ("ab" : String) ≠ "" ∧
    specLowerHexPattern (normalizeConditionId "ab") = true :=
  ⟨by decide, (normalizeConditionId_shape "ab" (by decide)).2.2 (by decide)⟩

/-!  The execution strategy selector. -/

theorem truthy_iff (o : Option String) :
    truthy o = true ↔ ∃ v, o = some v ∧ v ≠ "" := by
  cases o with
  | none => simp [truthy]
  | some s => by_cases hs : s = "" <;> simp [truthy, hs]

/-- Claim C1, counterexample: with the primary API-key variable set to
the empty string and its fallback non-empty (and the other two
credentials non-empty), every credential has a non-empty value under the
spec's first-NON-EMPTY-wins resolution, so the claim demands the relayed
strategy; the code resolves with `??` (first DEFINED wins), obtains the
empty string for the key, and chooses direct. -/
theorem useRelayer_counterexample :
    specUseRelayer envPrimaryEmptyKey = true ∧
    useRelayer envPrimaryEmptyKey = false := by
  constructor
  · decide
  · decide

/-- Claim C1 (amended): the selector returns the relayed strategy iff
all three credentials are present and non-empty, where each credential
is taken from two named environment sources with the first DEFINED value
winning (a set-but-empty primary wins over a non-empty fallback); in
every other case the direct strategy is chosen, and setting any one
credential's primary source to the empty string forces the direct
strategy. The selection is evaluated once per claimWinnings run. -/
theorem useRelayer_first_defined (env : Env) :
    (useRelayer env = true ↔
      ((∃ k, jsOr env.POLY_BUILDER_API_KEY env.BUILDER_API_KEY = some k ∧ k ≠ "") ∧
       (∃ s, jsOr env.POLY_BUILDER_SECRET env.BUILDER_SECRET = some s ∧ s ≠ "") ∧
       (∃ p, jsOr env.POLY_BUILDER_PASSPHRASE env.BUILDER_PASSPHRASE = some p ∧ p ≠ ""))) ∧
    useRelayer { env with POLY_BUILDER_API_KEY := some "" } = false ∧
    useRelayer { env with POLY_BUILDER_SECRET := some "" } = false ∧
    useRelayer { env with POLY_BUILDER_PASSPHRASE := some "" } = false := by
  refine ⟨?_, ?_, ?_, ?_⟩
  · simp only [useRelayer, Bool.and_eq_true, truthy_iff]
    tauto
  · simp [useRelayer, jsOr, truthy]
  · simp [useRelayer, jsOr, truthy]
  · simp [useRelayer, jsOr, truthy]

/-- Claim C2, counterexample: with the malformed signing key `badkey`,
the signing-client construction (`new Wallet(privateKey, provider)` on
the direct path, `privateKeyToAccount`/relay client on the relayed path
— both OUTSIDE the per-condition `try`/`catch`) throws, and
`claimWinnings` propagates that exception although the position fetch
succeeded with a non-empty redeemable set, refuting "for every signing
key ... the only way claimWinnings propagates an exception is when the
position fetch fails". -/
theorem claimWinnings_error_counterexample :
    claimWinnings envNoCreds posSrcOne okCtor badKeyCtor
      (fun _ _ => RedeemOutcome.ok none) (fun _ _ => RedeemOutcome.ok none)
      "badkey" "addr" = Except.error "invalid private key" ∧
    claimWinnings envFullCreds posSrcOne badKeyCtor okCtor
      (fun _ _ => RedeemOutcome.ok none) (fun _ _ => RedeemOutcome.ok none)
      "badkey" "addr" = Except.error "invalid private key" ∧
    posSrcOne "addr" 200 = Except.ok [⟨some "abc", 5, true⟩] := by
  refine ⟨rfl, rfl, rfl⟩

/-- Claim C2 (amended): for every signing key for which the
signing-client construction of both paths succeeds
(`privateKeyToAccount` and the relay client on the relayed path,
`new Wallet` on the direct path — code outside the per-condition
`try`/`catch` that throws for a malformed key), the only way
`claimWinnings` propagates an exception to its caller is when the
position fetch (Step 1, `getPositions`) fails, with the same error; and
every failure while redeeming an individual condition on either path is
captured in the `ClaimResult` (failed count) and never propagated. -/
theorem claimWinnings_error_iff_wellformed :
    (∀ (env : Env) (getPositions : String → Nat → Except String (List Position))
       (mkAccount mkWallet : String → Except String Unit)
       (relayRedeem directRedeem : String → String → RedeemOutcome)
       (privateKey myAddress e : String),
      mkAccount privateKey = Except.ok () →
      mkWallet privateKey = Except.ok () →
      (claimWinnings env getPositions mkAccount mkWallet relayRedeem directRedeem
          privateKey myAddress = Except.error e ↔
        getPositions myAddress 200 = Except.error e)) ∧
    (∀ (redeem : String → RedeemOutcome) (r : ClaimResult) (cid msg : String),
      redeem cid = RedeemOutcome.thrown msg →
      (relayerStep redeem r cid).failed = r.failed + 1 ∧
      (directStep redeem r cid).failed = r.failed + 1) := by
  constructor
  · intro env getPos mkAccount mkWallet relayRedeem directRedeem pk addr e hA hW
    cases hg : getPos addr 200 with
    | error e2 => simp [claimWinnings, hg]
    | ok ps =>
      simp only [claimWinnings, hg]
      split
      · simp
      · split
        · simp only [claimViaRelayer, hA]
          split <;> simp
        · simp only [claimViaDirect, hW]
          simp
  · intro redeem r cid msg h
    constructor <;> simp [relayerStep, directStep, h]

/-- Witness for the amended claim C2: with a well-formed key, a failing
position fetch propagates, and a thrown redemption increments `failed`
on a concrete result. -/
theorem claimWinnings_error_iff_wellformed_witness :
    claimWinnings envNoCreds (fun _ _ => Except.error "down") okCtor okCtor
      (fun _ _ => RedeemOutcome.ok none) (fun _ _ => RedeemOutcome.ok none)
      "pk" "addr" = Except.error "down" ∧
    (relayerStep (fun _ => RedeemOutcome.thrown "boom") ⟨0, 0, [], []⟩ "c").failed
      = 0 + 1 :=
  ⟨(claimWinnings_error_iff_wellformed.1 envNoCreds (fun _ _ => Except.error "down")
      okCtor okCtor (fun _ _ => RedeemOutcome.ok none)
      (fun _ _ => RedeemOutcome.ok none) "pk" "addr" "down" rfl rfl).mpr rfl,
   (claimWinnings_error_iff_wellformed.2 (fun _ => RedeemOutcome.thrown "boom")
      ⟨0, 0, [], []⟩ "c" "boom" rfl).1⟩

/-- Claim C3: when the set of positions with `redeemable = true` and
`size > 0` is empty, `claimWinnings` returns the zero-valued result
without consulting either redemption oracle (the theorem holds for all
oracles), as a success (`Except.ok`). -/
theorem claimWinnings_empty_redeemable
    (env : Env) (getPositions : String → Nat → Except String (List Position))
    (mkAccount mkWallet : String → Except String Unit)
    (relayRedeem directRedeem : String → String → RedeemOutcome)
    (privateKey myAddress : String) (positions : List Position)
    (hpos : getPositions myAddress 200 = Except.ok positions)
    (hempty : positions.filter isRedeemablePos = []) :
    claimWinnings env getPositions mkAccount mkWallet relayRedeem directRedeem
      privateKey myAddress = Except.ok ⟨0, 0, [], []⟩ := by
  simp [claimWinnings, hpos, hempty]

/-- Witness for claim C3 on a concrete non-redeemable position list. -/
theorem claimWinnings_empty_redeemable_witness :
    claimWinnings envNoCreds (fun _ _ => Except.ok [⟨some "abc", 5, false⟩])
      okCtor okCtor
      (fun _ _ => RedeemOutcome.ok none) (fun _ _ => RedeemOutcome.ok none)
      "pk" "addr" = Except.ok ⟨0, 0, [], []⟩ :=
  claimWinnings_empty_redeemable _ _ _ _ _ _ _ _ [⟨some "abc", 5, false⟩]
    rfl (by decide)

/-!  Helper lemmas about the JS-set deduplication and the id filter. -/

theorem jsSetInsert_mem {α : Type} [DecidableEq α] (acc : List α) (x y : α) :
    y ∈ jsSetInsert acc x ↔ y ∈ acc ∨ y = x := by
  by_cases hx : x ∈ acc
  · simp only [jsSetInsert, if_pos hx]
    constructor
    · exact Or.inl
    · rintro (h | rfl)
      · exact h
      · exact hx
  · simp [jsSetInsert, hx]

theorem jsSetInsert_nodup {α : Type} [DecidableEq α] (acc : List α) (x : α)
    (h : acc.Nodup) : (jsSetInsert acc x).Nodup := by
  by_cases hx : x ∈ acc
  · simpa [jsSetInsert, hx] using h
  · simp [jsSetInsert, hx, List.nodup_append, h]

theorem jsSetDedup_foldl_mem {α : Type} [DecidableEq α] (l : List α) :
    ∀ (acc : List α) (y : α),
      (y ∈ l.foldl jsSetInsert acc ↔ y ∈ acc ∨ y ∈ l) := by
  induction l with
  | nil => intro acc y; simp
  | cons x l ih =>
    intro acc y
    simp only [List.foldl_cons, ih, jsSetInsert_mem, List.mem_cons]
    tauto

theorem jsSetDedup_foldl_nodup {α : Type} [DecidableEq α] (l : List α) :
    ∀ acc : List α, acc.Nodup → (l.foldl jsSetInsert acc).Nodup := by
  induction l with
  | nil => intro acc h; exact h
  | cons x l ih => intro acc h; exact ih _ (jsSetInsert_nodup acc x h)

theorem jsSetDedup_mem {α : Type} [DecidableEq α] (l : List α) (y : α) :
    y ∈ jsSetDedup l ↔ y ∈ l := by
  simp [jsSetDedup, jsSetDedup_foldl_mem]

theorem jsSetDedup_nodup {α : Type} [DecidableEq α] (l : List α) :
    (jsSetDedup l).Nodup :=
  jsSetDedup_foldl_nodup l [] List.nodup_nil

theorem nonEmptyStringOf_eq_some (o : Option String) (id : String) :
    nonEmptyStringOf o = some id ↔ o = some id ∧ id ≠ "" := by
  cases o with
  | none => simp [nonEmptyStringOf]
  | some s =>
    simp only [nonEmptyStringOf, Option.some.injEq]
    by_cases hs : s = ""
    · subst hs
      simp only [if_pos rfl]
      constructor
      · intro h; cases h
      · rintro ⟨rfl, h⟩; exact absurd rfl h
    · simp only [if_neg hs, Option.some.injEq]
      constructor
      · rintro rfl; exact ⟨rfl, hs⟩
      · rintro ⟨rfl, _⟩; rfl

theorem conditionIdsOf_mem (redeemable : List Position) (id : String) :
    id ∈ conditionIdsOf redeemable ↔
      id ≠ "" ∧ ∃ p ∈ redeemable, p.conditionId = some id := by
  simp only [conditionIdsOf, List.mem_filterMap, jsSetDedup_mem, List.mem_map]
  constructor
  · rintro ⟨o, ⟨p, hp, rfl⟩, ho⟩
    rw [nonEmptyStringOf_eq_some] at ho
    exact ⟨ho.2, p, hp, ho.1⟩
  · rintro ⟨hne, p, hp, hid⟩
    exact ⟨some id, ⟨p, hp, hid⟩, by rw [nonEmptyStringOf_eq_some]; exact ⟨rfl, hne⟩⟩

theorem conditionIdsOf_nodup (redeemable : List Position) :
    (conditionIdsOf redeemable).Nodup := by
  apply List.Nodup.filterMap ?_ (jsSetDedup_nodup _)
  intro a a' b hb hb'
  rw [Option.mem_def, nonEmptyStringOf_eq_some] at hb hb'
  rw [hb.1, hb'.1]

theorem mem_filter_isRedeemable (ps : List Position) (p : Position) :
    p ∈ ps.filter isRedeemablePos ↔
      p ∈ ps ∧ p.redeemable = true ∧ p.size > 0 := by
  simp [List.mem_filter, isRedeemablePos, and_assoc]

/-- Claim C4: the dispatched redeemable set is the deduplicated list of
condition ids of positions with `redeemable = true` and `size > 0`
(empty-string and non-string ids discarded): it has no duplicates, an id
belongs to it exactly when some redeemable positive-size position
carries it, every member occurs exactly once (one redemption attempt per
unique id, as the loop folds over this list), and on the spec's example
position list it is exactly `["abc"]`. -/
theorem conditionIds_dedup_spec :
    (∀ ps : List Position,
      (conditionIdsOf (ps.filter isRedeemablePos)).Nodup ∧
      (∀ id : String,
        id ∈ conditionIdsOf (ps.filter isRedeemablePos) ↔
          id ≠ "" ∧ ∃ p ∈ ps, p.redeemable = true ∧ p.size > 0 ∧
            p.conditionId = some id) ∧
      (∀ id : String, id ∈ conditionIdsOf (ps.filter isRedeemablePos) →
        (conditionIdsOf (ps.filter isRedeemablePos)).count id = 1)) ∧
    conditionIdsOf (examplePositions.filter isRedeemablePos) = ["abc"] := by
  constructor
  · intro ps
    refine ⟨conditionIdsOf_nodup _, ?_, ?_⟩
    · intro id
      rw [conditionIdsOf_mem]
      constructor
      · rintro ⟨hne, p, hp, hid⟩
        rw [mem_filter_isRedeemable] at hp
        exact ⟨hne, p, hp.1, hp.2.1, hp.2.2, hid⟩
      · rintro ⟨hne, p, hp, hr, hs, hid⟩
        exact ⟨hne, p, (mem_filter_isRedeemable ps p).2 ⟨hp, hr, hs⟩, hid⟩
    · intro id hid
      exact List.count_eq_one_of_mem (conditionIdsOf_nodup _) hid
  · decide

/-- Witness for claim C4: on the example list, `"abc"` is dispatched
exactly once. -/
theorem conditionIds_dedup_spec_witness :
    (conditionIdsOf (examplePositions.filter isRedeemablePos)).count "abc" = 1 :=
  (conditionIds_dedup_spec.1 examplePositions).2.2 "abc" (by decide)

/-!  Per-condition loop properties. -/

/-- Claim C5: per-condition failures are isolated — for every oracle,
splitting the dispatched list around any condition shows the remaining
conditions are still folded after it (the catch makes each step total),
and in the concrete three-condition scenario whose second redemption
throws, both paths report `claimed = 2`, `failed = 1` and both
successful hashes in processing order. -/
theorem redeem_failure_isolation :
    (∀ (redeem : String → RedeemOutcome) (pre post : List String)
       (cid : String) (r : ClaimResult),
      (pre ++ cid :: post).foldl (relayerStep redeem) r =
        post.foldl (relayerStep redeem)
          (relayerStep redeem (pre.foldl (relayerStep redeem) r) cid) ∧
      (pre ++ cid :: post).foldl (directStep redeem) r =
        post.foldl (directStep redeem)
          (directStep redeem (pre.foldl (directStep redeem) r) cid)) ∧
    claimViaRelayer envFullCreds "pk" okCtor (fun _ => scenarioRedeem)
      ["c1", "c2", "c3"] ⟨0, 0, [], []⟩
      = Except.ok ⟨2, 1, ["c2…: relay rejected"], ["hc1", "hc3"]⟩ ∧
    claimViaDirect "pk" okCtor (fun _ => scenarioRedeem)
      ["c1", "c2", "c3"] ⟨0, 0, [], []⟩
      = Except.ok ⟨2, 1, ["c2…: relay rejected"], ["hc1", "hc3"]⟩ := by
  refine ⟨?_, ?_, ?_⟩
  · intro redeem pre post cid r
    constructor <;> simp [List.foldl_append]
  · rfl
  · rfl

/-- Claim C8, counterexample: the stored record is NOT the first 10
characters of the condition id immediately followed by the first 80
characters of the message — the code inserts the separator `…: ` in
between (shown at condition id `abc`, message `x`, on both paths). -/
theorem errorRecord_counterexample :
    errorRecordRelayer "abc" "x" ≠ specRecordPlain "abc" "x" ∧
    errorRecordDirect "abc" "x" ≠ specRecordPlain "abc" "x" ∧
    errorRecordRelayer "abc" "x" = "abc…: x" := by
  refine ⟨by decide, by decide, by decide⟩

/-- Claim C8 (amended): every recorded per-condition error string is the
first 10 characters of the condition id, then the literal separator
`…: `, then the first 80 characters of the error message; a condition id
longer than 10 characters is truncated to 10 and a message longer than
80 characters to 80, identically on the relayed and the direct path. -/
theorem errorRecord_truncation (cid msg : String)
    (redeem : String → RedeemOutcome) (r : ClaimResult)
    (h : redeem cid = RedeemOutcome.thrown msg) :
    (relayerStep redeem r cid).errors
      = r.errors ++ [sliceChars cid 10 ++ "…: " ++ sliceChars msg 80] ∧
    (directStep redeem r cid).errors
      = r.errors ++ [sliceChars cid 10 ++ "…: " ++ sliceChars msg 80] ∧
    errorRecordRelayer cid msg = errorRecordDirect cid msg ∧
    (sliceChars cid 10).data.length ≤ 10 ∧
    (sliceChars msg 80).data.length ≤ 80 := by
  refine ⟨?_, ?_, rfl, ?_, ?_⟩
  · simp [relayerStep, h, errorRecordRelayer]
  · simp [directStep, h, errorRecordDirect]
  · exact List.length_take_le 10 cid.data
  · exact List.length_take_le 80 msg.data

/-- Witness for the amended claim C8: a 16-character id and an
86-character message produce the truncated record on a concrete step. -/
theorem errorRecord_truncation_witness :
    (relayerStep
      (fun _ => RedeemOutcome.thrown
        "eeeeeeeeeeeeeeeeeeeeeeeeeeeeeeeeeeeeeeeeeeeeeeeeeeeeeeeeeeeeeeeeeeeeeeeeeeeeeeeeeeee")
      ⟨0, 0, [], []⟩ "0123456789abcdef").errors
      = [] ++ [sliceChars "0123456789abcdef" 10 ++ "…: " ++
          sliceChars
            "eeeeeeeeeeeeeeeeeeeeeeeeeeeeeeeeeeeeeeeeeeeeeeeeeeeeeeeeeeeeeeeeeeeeeeeeeeeeeeeeeeee"
            80] :=
  (errorRecord_truncation "0123456789abcdef"
    "eeeeeeeeeeeeeeeeeeeeeeeeeeeeeeeeeeeeeeeeeeeeeeeeeeeeeeeeeeeeeeeeeeeeeeeeeeeeeeeeeeee"
    _ _ rfl).1

/-!  The counts-match invariant. -/

theorem relayerStep_inv (redeem : String → RedeemOutcome) (r : ClaimResult)
    (cid : String) (h : resultInv r) : resultInv (relayerStep redeem r cid) := by
  rcases h with ⟨h1, h2⟩
  unfold relayerStep
  cases redeem cid with
  | ok w =>
    cases w with
    | some s => by_cases hs : s = "" <;> simp [hs, resultInv, h1, h2]
    | none => exact ⟨h1, h2⟩
  | thrown msg => simp [resultInv, h1, h2]

theorem directStep_eq (redeem : String → RedeemOutcome) (r : ClaimResult)
    (cid : String) : directStep redeem r cid = relayerStep redeem r cid := rfl

theorem foldl_relayerStep_inv (redeem : String → RedeemOutcome)
    (ids : List String) :
    ∀ r : ClaimResult, resultInv r →
      resultInv (ids.foldl (relayerStep redeem) r) := by
  induction ids with
  | nil => intro r h; exact h
  | cons x ids ih => intro r h; exact ih _ (relayerStep_inv redeem r x h)

theorem foldl_directStep_inv (redeem : String → RedeemOutcome)
    (ids : List String) :
    ∀ r : ClaimResult, resultInv r →
      resultInv (ids.foldl (directStep redeem) r) := by
  induction ids with
  | nil => intro r h; exact h
  | cons x ids ih =>
    intro r h
    exact ih _ (by rw [directStep_eq]; exact relayerStep_inv redeem r x h)

theorem claimViaRelayer_inv (env : Env) (pk : String)
    (mkAccount : String → Except String Unit)
    (redeem : String → String → RedeemOutcome) (ids : List String)
    (r res : ClaimResult) (h : resultInv r)
    (hres : claimViaRelayer env pk mkAccount redeem ids r = Except.ok res) :
    resultInv res := by
  simp only [claimViaRelayer] at hres
  split at hres
  · rw [Except.ok.injEq] at hres
    subst hres
    exact h
  · cases hA : mkAccount pk with
    | error e => simp [hA] at hres
    | ok u =>
      simp only [hA, Except.ok.injEq] at hres
      subst hres
      exact foldl_relayerStep_inv _ ids r h

theorem claimViaDirect_inv (pk : String)
    (mkWallet : String → Except String Unit)
    (redeem : String → String → RedeemOutcome) (ids : List String)
    (r res : ClaimResult) (h : resultInv r)
    (hres : claimViaDirect pk mkWallet redeem ids r = Except.ok res) :
    resultInv res := by
  simp only [claimViaDirect] at hres
  cases hW : mkWallet pk with
  | error e => simp [hW] at hres
  | ok u =>
    simp only [hW, Except.ok.injEq] at hres
    subst hres
    exact foldl_directStep_inv _ ids r h

/-- Claim C9: in every `ClaimResult` built by a per-condition step of
either path and in every result returned by `claimWinnings`, the
`claimed` counter equals the number of recorded transaction hashes and
the `failed` counter the number of recorded errors — each increment is
paired with exactly one push. -/
theorem claimResult_counts_match :
    (∀ (redeem : String → RedeemOutcome) (r : ClaimResult) (cid : String),
      resultInv r →
      resultInv (relayerStep redeem r cid) ∧
      resultInv (directStep redeem r cid)) ∧
    (∀ (env : Env) (getPositions : String → Nat → Except String (List Position))
       (mkAccount mkWallet : String → Except String Unit)
       (relayRedeem directRedeem : String → String → RedeemOutcome)
       (privateKey myAddress : String) (res : ClaimResult),
      claimWinnings env getPositions mkAccount mkWallet relayRedeem directRedeem
        privateKey myAddress = Except.ok res → resultInv res) := by
  constructor
  · intro redeem r cid h
    refine ⟨relayerStep_inv redeem r cid h, ?_⟩
    rw [directStep_eq]
    exact relayerStep_inv redeem r cid h
  · intro env getPos mkAccount mkWallet relayRedeem directRedeem pk addr res hres
    cases hg : getPos addr 200 with
    | error e => simp [claimWinnings, hg] at hres
    | ok ps =>
      simp only [claimWinnings, hg] at hres
      split at hres
      · rw [Except.ok.injEq] at hres
        subst hres
        exact ⟨rfl, rfl⟩
      · split at hres
        · exact claimViaRelayer_inv _ _ _ _ _ _ _ ⟨rfl, rfl⟩ hres
        · exact claimViaDirect_inv _ _ _ _ _ _ ⟨rfl, rfl⟩ hres

/-- Witness for claim C9: a concrete step and a concrete full run both
satisfy the counts-match invariant. -/
theorem claimResult_counts_match_witness :
    resultInv (relayerStep (fun _ => RedeemOutcome.ok (some "h1"))
      ⟨0, 0, [], []⟩ "c") ∧
    resultInv ⟨1, 0, [], ["txh"]⟩ :=
  ⟨(claimResult_counts_match.1 (fun _ => RedeemOutcome.ok (some "h1"))
      ⟨0, 0, [], []⟩ "c" ⟨rfl, rfl⟩).1,
   claimResult_counts_match.2 envNoCreds
     (fun _ _ => Except.ok [⟨some "abc", 5, true⟩]) okCtor okCtor
     (fun _ _ => RedeemOutcome.ok none) (fun _ _ => RedeemOutcome.ok (some "txh"))
     "pk" "addr" ⟨1, 0, [], ["txh"]⟩ rfl⟩

/-- Claim C10: on both paths, a per-condition attempt that completes
without throwing but yields no transaction hash is counted as neither
claimed nor failed and appends no error record; consequently a full run
can dispatch one condition and report `claimed + failed = 0`, strictly
less than the number of dispatched condition ids. -/
theorem no_hash_no_count :
    (∀ (redeem : String → RedeemOutcome) (r : ClaimResult) (cid : String),
      redeem cid = RedeemOutcome.ok none →
      relayerStep redeem r cid = r ∧ directStep redeem r cid = r) ∧
    (claimWinnings envNoCreds (fun _ _ => Except.ok [⟨some "abc", 5, true⟩])
        okCtor okCtor
        (fun _ _ => RedeemOutcome.ok none) (fun _ _ => RedeemOutcome.ok none)
        "pk" "addr" = Except.ok ⟨0, 0, [], []⟩ ∧
      (conditionIdsOf ([⟨some "abc", 5, true⟩].filter isRedeemablePos)).length = 1 ∧
      (0 : Nat) + 0 < (conditionIdsOf ([⟨some "abc", 5, true⟩].filter isRedeemablePos)).length) := by
  refine ⟨?_, rfl, rfl, ?_⟩
  · intro redeem r cid h
    constructor <;> simp [relayerStep, directStep, h]
  · decide

/-- Witness for claim C10: a no-hash completion leaves a concrete result
untouched. -/
theorem no_hash_no_count_witness :
    relayerStep (fun _ => RedeemOutcome.ok none) ⟨0, 0, [], []⟩ "c"
      = ⟨0, 0, [], []⟩ :=
  (no_hash_no_count.1 (fun _ => RedeemOutcome.ok none) ⟨0, 0, [], []⟩ "c" rfl).1
